import Mathlib

/-!
Shallow embedding of the file-ingestion pipeline of tap_s3_csv/sync.py.

The embedding models, faithfully to the source:
  sync_stream, sync_table_file, handle_file, sync_gz_file,
  sync_compressed_file, get_source_type_for_updatecol_map,
  sync_csv_file, sync_jsonl_file  (tap_s3_csv/sync.py).

External collaborators (the s3 client, the csv_iterator module, the singer
transformer and message writer) are modelled at their interface: an s3
object carries a description of everything those collaborators can report
about its bytes (the Content type below), the transformer is an abstract
function, and messages.write_records appends a batch to an emission log.
The module-global counter s3.skipped_files_count and the batch log are
threaded explicitly as a SyncState value.

Machine-level string operations (str.split, str.lower, str.endswith) are
re-implemented structurally over character lists so that the model is
executable by the kernel.
-/

namespace TapS3Csv

/-- Python s.split(sep) on a character list: splitting the empty string
yields one empty piece, and every separator occurrence starts a new piece. -/
def splitOnChar (sep : Char) : List Char → List (List Char)
  | [] => [[]]
  | c :: cs =>
    let rest := splitOnChar sep cs
    if c = sep then [] :: rest
    else match rest with
      | [] => [[c]]
      | r :: rs => (c :: r) :: rs

/-- Python s.lower(): lowercase every character. -/
def lowerStr (s : String) : String := String.mk (s.data.map Char.toLower)

/-- Python s.endswith(suffix). -/
def strEndsWith (s suffix : String) : Bool := suffix.data.isSuffixOf s.data

/-- Python s3_path.split(".")[-1].lower(): the last dot-separated component,
lowercased (sync.py line 73 and line 178 and line 194). -/
def lastExt (s : String) : String :=
  String.mk (((splitOnChar '.' s.data).getLastD []).map Char.toLower)

/-- Exceptions that cross function boundaries in sync.py: decodeError stands
for UnicodeDecodeError and json.decoder.JSONDecodeError (both are caught at
sync.py line 87), genericError for the bare Exception raised at sync.py
line 181 (never caught inside the tap). -/
inductive Exc where
  | decodeError
  | genericError
deriving DecidableEq, Repr

/-- A raw delimited row as handed over by the external row iterator. -/
abbrev Row := List String

/-- A parsed JSON-lines object, as a field list. -/
abbrev JObj := List (String × String)

/-- Outcome of csv_iterator.get_row_iterator on an object (sync.py line 237).
noIterator is the falsy return used by sync_csv_file to detect an empty
object. Modelled from the spec: the csv_iterator module is not part of the
sources; per the spec an object from which zero usable rows can be extracted
yields no iterator, and a live iterator lazily yields its rows and, when the
bytes are not valid text for the parser, raises a decode error at the point
of row iteration, after the rows it could produce (fails flag). -/
inductive CsvIter where
  | noIterator
  | iter (rows : List Row) (fails : Bool)
deriving DecidableEq, Repr

/-- One line of a JSON-lines object as seen by sync_jsonl_file's iterator:
blank is a whitespace-only line (skipped at sync.py line 301), bad is a line
whose utf-8 decoding or json.loads raises (sync.py lines 300-302), obj is a
successfully parsed object. -/
inductive JLine where
  | blank
  | bad
  | obj (fields : JObj)
deriving DecidableEq, Repr

/-- Outcome of reading a gzip member through
utils.get_file_name_from_gzfile (sync.py lines 158-168). Modelled from the
spec: the utils module is not part of the sources; a header that carries no
recoverable original filename raises AttributeError (attrError), a falsy
recovered name (noName) falls through to the raise at sync.py line 181, and
a recovered name comes with the decompressed content. -/
inductive GzParse (a : Type) where
  | attrError
  | noName
  | named (name : String) (inner : a)
deriving DecidableEq, Repr

/-- Everything the external collaborators can report about one object's
bytes: its outcome under the csv iterator, under the JSON-lines iterator,
under gzip decompression, and the decompressed members under zip
(compression.infer at sync.py line 190, each member with its name). -/
inductive Content where
  | mk (csv : CsvIter) (jsonl : List JLine) (gz : GzParse Content)
       (zip : List (String × Content))

/-- Csv-iterator view of the object's bytes. -/
def Content.csv : Content → CsvIter
  | .mk c _ _ _ => c

/-- JSON-lines view of the object's bytes. -/
def Content.jsonl : Content → List JLine
  | .mk _ j _ _ => j

/-- Gzip view of the object's bytes. -/
def Content.gz : Content → GzParse Content
  | .mk _ _ g _ => g

/-- Zip-archive view of the object's bytes. -/
def Content.zip : Content → List (String × Content)
  | .mk _ _ _ z => z

/-- The external singer transformer (transform.Transformer.transform),
abstract: one output record per accepted raw row. -/
structure Transform (Rec : Type) where
  ofCsv : Row → Rec
  ofJson : JObj → Rec

/-- The mutable state visible across the pipeline: the module-global
s3.skipped_files_count, and the log of batches handed to
messages.write_records, in call order. -/
structure SyncState (Rec : Type) where
  skipped : Nat
  batches : List (List Rec)
deriving DecidableEq, Repr

variable {Rec : Type}

/-- sync.py line 24. -/
def BUFFER_SIZE : Nat := 100

/-- Increment of the module-global skip counter
(s3.skipped_files_count = s3.skipped_files_count + 1). -/
def addSkip (st : SyncState Rec) : SyncState Rec :=
  { st with skipped := st.skipped + 1 }

/-- messages.write_records: append one batch to the emission log. -/
def emitBatch (st : SyncState Rec) (b : List Rec) : SyncState Rec :=
  { st with batches := st.batches ++ [b] }

/-- The row loop of sync_csv_file (sync.py lines 252-270): skip empty rows,
transform, buffer, flush a full batch when the buffer reaches BUFFER_SIZE.
State carried: buffer, records_synced, SyncState. -/
def csvLoop (T : Transform Rec) :
    List Row → List Rec → Nat → SyncState Rec → List Rec × Nat × SyncState Rec
  | [], buf, synced, st => (buf, synced, st)
  | row :: rest, buf, synced, st =>
    if row.length = 0 then csvLoop T rest buf synced st
    else
      let buf2 := buf ++ [T.ofCsv row]
      if BUFFER_SIZE ≤ buf2.length then
        csvLoop T rest [] (synced + buf2.length) (emitBatch st buf2)
      else csvLoop T rest buf2 synced st

/-- sync_csv_file (sync.py lines 222-281). A falsy iterator is counted as a
skipped file; a decode failure raised while iterating propagates before the
final partial-batch flush can run. -/
def sync_csv_file (T : Transform Rec) (csv : CsvIter) (st : SyncState Rec) :
    SyncState Rec × Except Exc Nat :=
  match csv with
  | .noIterator => (addSkip st, .ok 0)
  | .iter rows fails =>
    match csvLoop T rows [] 0 st with
    | (buf, synced, st2) =>
      if fails then (st2, .error .decodeError)
      else if 0 < buf.length then (emitBatch st2 buf, .ok (synced + buf.length))
      else (st2, .ok synced)

/-- The row loop of sync_jsonl_file (sync.py lines 298-318): skip blank
lines and empty objects, raise on undecodable lines, transform, buffer,
flush full batches. The fourth component records a raised exception. -/
def jsonlLoop (T : Transform Rec) :
    List JLine → List Rec → Nat → SyncState Rec →
    List Rec × Nat × SyncState Rec × Option Exc
  | [], buf, synced, st => (buf, synced, st, none)
  | .blank :: rest, buf, synced, st => jsonlLoop T rest buf synced st
  | .bad :: _, buf, synced, st => (buf, synced, st, some .decodeError)
  | .obj fields :: rest, buf, synced, st =>
    if fields.length = 0 then jsonlLoop T rest buf synced st
    else
      let buf2 := buf ++ [T.ofJson fields]
      if BUFFER_SIZE ≤ buf2.length then
        jsonlLoop T rest [] (synced + buf2.length) (emitBatch st buf2)
      else jsonlLoop T rest buf2 synced st

/-- sync_jsonl_file (sync.py lines 284-324). -/
def sync_jsonl_file (T : Transform Rec) (lines : List JLine)
    (st : SyncState Rec) : SyncState Rec × Except Exc Nat :=
  match jsonlLoop T lines [] 0 st with
  | (_, _, st2, some e) => (st2, .error e)
  | (buf, synced, st2, none) =>
    if 0 < buf.length then (emitBatch st2 buf, .ok (synced + buf.length))
    else (st2, .ok synced)

/-- handle_file (sync.py lines 98-140). The body of sync_gz_file
(sync.py lines 143-181) is inlined into the gz branch so that the mutual
recursion of the source becomes structural recursion on Content; the
standalone sync_gz_file below restates it and is proved to agree. -/
def handle_file (T : Transform Rec) :
    String → String → Content → SyncState Rec → SyncState Rec × Except Exc Nat
  | s3_path, ext, c, st =>
    if ext = "" ∨ lowerStr s3_path = ext then (addSkip st, .ok 0)
    else if ext = "gz" then
      -- sync_gz_file, inlined
      if strEndsWith s3_path ".tar.gz" then (addSkip st, .ok 0)
      else match c with
        | .mk _ _ .attrError _ => (addSkip st, .ok 0)
        | .mk _ _ .noName _ => (st, .error .genericError)
        | .mk _ _ (.named name inner) _ =>
          if strEndsWith name ".gz" then (addSkip st, .ok 0)
          else handle_file T (s3_path ++ "/" ++ name) (lastExt name) inner st
    else if ext = "csv" ∨ ext = "txt" then sync_csv_file T c.csv st
    else if ext = "jsonl" then
      match sync_jsonl_file T c.jsonl st with
      | (st2, .ok 0) => (addSkip st2, .ok 0)
      | other => other
    else if ext = "zip" then (addSkip st, .ok 0)
    else (addSkip st, .ok 0)

/-- sync_gz_file (sync.py lines 143-181), in the shape of the source. -/
def sync_gz_file (T : Transform Rec) (s3_path : String) (c : Content)
    (st : SyncState Rec) : SyncState Rec × Except Exc Nat :=
  if strEndsWith s3_path ".tar.gz" then (addSkip st, .ok 0)
  else match c.gz with
    | .attrError => (addSkip st, .ok 0)
    | .noName => (st, .error .genericError)
    | .named name inner =>
      if strEndsWith name ".gz" then (addSkip st, .ok 0)
      else handle_file T (s3_path ++ "/" ++ name) (lastExt name) inner st

/-- The member loop of sync_compressed_file (sync.py lines 193-201): only
members whose name's extension is csv, jsonl, gz or txt are handed to
handle_file; every other member is passed over without any effect. -/
def sync_compressed_entries (T : Transform Rec) (s3_path : String) :
    List (String × Content) → Nat → SyncState Rec →
    SyncState Rec × Except Exc Nat
  | [], acc, st => (st, .ok acc)
  | (name, ec) :: rest, acc, st =>
    let ext := lastExt name
    if ext = "csv" ∨ ext = "jsonl" ∨ ext = "gz" ∨ ext = "txt" then
      match handle_file T (s3_path ++ "/" ++ name) ext ec st with
      | (st2, .ok n) => sync_compressed_entries T s3_path rest (acc + n) st2
      | (st2, .error e) => (st2, .error e)
    else sync_compressed_entries T s3_path rest acc st

/-- sync_compressed_file (sync.py lines 184-203). -/
def sync_compressed_file (T : Transform Rec) (s3_path : String) (c : Content)
    (st : SyncState Rec) : SyncState Rec × Except Exc Nat :=
  sync_compressed_entries T s3_path c.zip 0 st

/-- sync_table_file (sync.py lines 71-94): dispatch on the key's extension;
UnicodeDecodeError and JSONDecodeError are caught and converted into one
skip count and a zero return; an unknown extension is only warned about. -/
def sync_table_file (T : Transform Rec) (s3_path : String) (c : Content)
    (st : SyncState Rec) : SyncState Rec × Except Exc Nat :=
  let ext := lastExt s3_path
  if ext = "" ∨ lowerStr s3_path = ext then (addSkip st, .ok 0)
  else
    let attempt : SyncState Rec × Except Exc Nat :=
      if ext = "zip" then sync_compressed_file T s3_path c st
      else if ext = "csv" ∨ ext = "gz" ∨ ext = "jsonl" ∨ ext = "txt" then
        handle_file T s3_path ext c st
      else (st, .ok 0)
    match attempt with
    | (st2, .error .decodeError) => (addSkip st2, .ok 0)
    | other => other

/-- One configured column-update rule (an element of the lists stored in
config['columns_to_update']). -/
structure ColumnUpdate where
  columnUpdateType : String
  column : String
deriving DecidableEq, Repr

/-- Python dict lookup on an association list (first binding wins, matching
insertStr below which keeps keys unique). -/
def lookupStr (m : List (String × String)) (k : String) : Option String :=
  (m.find? (fun p => p.1 = k)).map (fun p => p.2)

/-- Python dict assignment d[k] = v on an association list: overwrite in
place when the key is present, append otherwise. -/
def insertStr (m : List (String × String)) (k v : String) :
    List (String × String) :=
  if m.any (fun p => p.1 = k) then
    m.map (fun p => if p.1 = k then (k, v) else p)
  else m ++ [(k, v)]

/-- get_source_type_for_updatecol_map (sync.py lines 206-219). The config's
columns_to_update entry is a mapping whose values are rule lists; the code
reads list(column_updates.values())[0], i.e. only the first entry's rules. -/
def get_source_type_for_updatecol_map
    (column_updates : Option (List (String × List ColumnUpdate)))
    (source_type_map : List (String × String)) : List (String × String) :=
  match column_updates with
  | none => []
  | some [] => []
  | some ((_, updates) :: _) =>
    updates.foldl
      (fun acc u =>
        if u.columnUpdateType ≠ "modify" then acc
        else match lookupStr source_type_map u.column with
          | some t => insertStr acc u.column t
          | none => acc)
      []

/-- One enumerated s3 object: key, last_modified (kept as the isoformat
string that sync.py line 57 persists) and what the collaborators report
about its bytes. -/
structure S3File where
  key : String
  last_modified : String
  content : Content

/-- The per-file loop of sync_stream (sync.py lines 51-59): sync the file,
then write and persist the bookmark with the file's last_modified. The
accumulator collects records_streamed; writes collects each persisted
bookmark value in order. An uncaught exception aborts the loop. -/
def syncFiles (T : Transform Rec) :
    List S3File → Nat → SyncState Rec → List String →
    SyncState Rec × List String × Except Exc Nat
  | [], acc, st, writes => (st, writes, .ok acc)
  | f :: rest, acc, st, writes =>
    match sync_table_file T f.key f.content st with
    | (st2, .ok n) => syncFiles T rest (acc + n) st2 (writes ++ [f.last_modified])
    | (st2, .error e) => (st2, writes, .error e)

/-- Observable outcome of sync_stream: final state, the sequence of
persisted bookmark values, the count reported by the end-of-sync skip
warning (sync.py lines 61-63, only reached when no exception propagates),
and the return value or the propagated exception. -/
structure StreamResult (Rec : Type) where
  state : SyncState Rec
  bookmarkWrites : List String
  warned : Option Nat
  result : Except Exc Nat
deriving Repr

/-- sync_stream (sync.py lines 27-68): sort the enumerated files by key
(sync.py line 51), process each in order, bookmark after each file. -/
def sync_stream (T : Transform Rec) (files : List S3File)
    (st : SyncState Rec) : StreamResult Rec :=
  let sortedFiles := files.mergeSort (fun a b => a.key ≤ b.key)
  match syncFiles T sortedFiles 0 st [] with
  | (st2, writes, .ok n) =>
    { state := st2, bookmarkWrites := writes,
      warned := if st2.skipped ≠ 0 then some st2.skipped else none,
      result := .ok n }
  | (st2, writes, .error e) =>
    { state := st2, bookmarkWrites := writes, warned := none,
      result := .error e }

/-! Helper lemmas about the row loops. -/

/-- The rows of a delimited object that are not dropped by the empty-row
check at sync.py line 254. -/
def acceptedCsv (rows : List Row) : List Row :=
  rows.filter (fun r => !(r.length == 0))

theorem csvLoop_skipped (T : Transform Rec) (rows : List Row) :
    ∀ (buf : List Rec) (synced : Nat) (st : SyncState Rec),
    ((csvLoop T rows buf synced st).2.2).skipped = st.skipped := by
  induction rows with
  | nil => intro buf synced st; simp [csvLoop]
  | cons row rest ih =>
    intro buf synced st
    simp only [csvLoop]
    split
    · exact ih buf synced st
    · split
      · exact ih [] (synced + (buf ++ [T.ofCsv row]).length) (emitBatch st (buf ++ [T.ofCsv row]))
      · exact ih (buf ++ [T.ofCsv row]) synced st

theorem csvLoop_batches (T : Transform Rec) (rows : List Row) :
    ∀ (buf : List Rec) (synced : Nat) (st : SyncState Rec),
    ∃ bs, ((csvLoop T rows buf synced st).2.2).batches = st.batches ++ bs := by
  induction rows with
  | nil => intro buf synced st; exact ⟨[], by simp [csvLoop]⟩
  | cons row rest ih =>
    intro buf synced st
    simp only [csvLoop]
    split
    · exact ih buf synced st
    · split
      · obtain ⟨bs, h⟩ :=
          ih [] (synced + (buf ++ [T.ofCsv row]).length) (emitBatch st (buf ++ [T.ofCsv row]))
        exact ⟨[buf ++ [T.ofCsv row]] ++ bs, by simpa [emitBatch] using h⟩
      · exact ih (buf ++ [T.ofCsv row]) synced st

theorem acceptedCsv_cons_pos (row : Row) (rest : List Row) (h0 : row.length = 0) :
    acceptedCsv (row :: rest) = acceptedCsv rest := by
  simp [acceptedCsv, List.filter_cons, h0]

theorem acceptedCsv_cons_neg (row : Row) (rest : List Row) (h0 : ¬ row.length = 0) :
    acceptedCsv (row :: rest) = row :: acceptedCsv rest := by
  simp [acceptedCsv, List.filter_cons, h0]

theorem csvLoop_count (T : Transform Rec) (rows : List Row) :
    ∀ (buf : List Rec) (synced : Nat) (st : SyncState Rec),
    (csvLoop T rows buf synced st).2.1 + (csvLoop T rows buf synced st).1.length
      = synced + buf.length + (acceptedCsv rows).length := by
  induction rows with
  | nil => intro buf synced st; simp [csvLoop, acceptedCsv]
  | cons row rest ih =>
    intro buf synced st
    by_cases h0 : row.length = 0
    · rw [acceptedCsv_cons_pos row rest h0]
      simp only [csvLoop, if_pos h0]
      exact ih buf synced st
    · rw [acceptedCsv_cons_neg row rest h0]
      simp only [csvLoop, if_neg h0]
      split
      · have := ih [] (synced + (buf ++ [T.ofCsv row]).length) (emitBatch st (buf ++ [T.ofCsv row]))
        simp only [List.length_append, List.length_cons, List.length_nil,
          List.length_singleton] at this ⊢
        omega
      · have := ih (buf ++ [T.ofCsv row]) synced st
        simp only [List.length_append, List.length_cons, List.length_nil,
          List.length_singleton] at this ⊢
        omega

theorem jsonlLoop_skipped (T : Transform Rec) (lines : List JLine) :
    ∀ (buf : List Rec) (synced : Nat) (st : SyncState Rec),
    ((jsonlLoop T lines buf synced st).2.2.1).skipped = st.skipped := by
  induction lines with
  | nil => intro buf synced st; simp [jsonlLoop]
  | cons l rest ih =>
    intro buf synced st
    match l with
    | .blank => simpa only [jsonlLoop] using ih buf synced st
    | .bad => simp [jsonlLoop]
    | .obj fields =>
      simp only [jsonlLoop]
      split
      · exact ih buf synced st
      · split
        · exact ih [] (synced + (buf ++ [T.ofJson fields]).length)
            (emitBatch st (buf ++ [T.ofJson fields]))
        · exact ih (buf ++ [T.ofJson fields]) synced st

theorem jsonlLoop_batches (T : Transform Rec) (lines : List JLine) :
    ∀ (buf : List Rec) (synced : Nat) (st : SyncState Rec),
    ∃ bs, ((jsonlLoop T lines buf synced st).2.2.1).batches = st.batches ++ bs := by
  induction lines with
  | nil => intro buf synced st; exact ⟨[], by simp [jsonlLoop]⟩
  | cons l rest ih =>
    intro buf synced st
    match l with
    | .blank => simpa only [jsonlLoop] using ih buf synced st
    | .bad => exact ⟨[], by simp [jsonlLoop]⟩
    | .obj fields =>
      simp only [jsonlLoop]
      split
      · exact ih buf synced st
      · split
        · obtain ⟨bs, h⟩ := ih [] (synced + (buf ++ [T.ofJson fields]).length)
            (emitBatch st (buf ++ [T.ofJson fields]))
          exact ⟨[buf ++ [T.ofJson fields]] ++ bs, by simpa [emitBatch] using h⟩
        · exact ih (buf ++ [T.ofJson fields]) synced st

/-- A JSON-lines object all of whose lines are blank or parse to the empty
object extracts zero usable rows and leaves the loop state untouched. -/
theorem jsonlLoop_all_empty (T : Transform Rec) (lines : List JLine)
    (h : ∀ l ∈ lines, l = JLine.blank ∨ l = JLine.obj []) :
    ∀ (buf : List Rec) (synced : Nat) (st : SyncState Rec),
    jsonlLoop T lines buf synced st = (buf, synced, st, none) := by
  induction lines with
  | nil => intro buf synced st; simp [jsonlLoop]
  | cons l rest ih =>
    intro buf synced st
    have hl := h l (List.mem_cons_self l rest)
    have hrest : ∀ x ∈ rest, x = JLine.blank ∨ x = JLine.obj [] :=
      fun x hx => h x (List.mem_cons_of_mem l hx)
    rcases hl with hl | hl <;> subst hl
    · simpa only [jsonlLoop] using ih hrest buf synced st
    · simpa only [jsonlLoop, List.length_nil, if_pos rfl] using ih hrest buf synced st

/-- A JSON-lines object containing an undecodable line always raises a
decode error out of the row loop. -/
theorem jsonlLoop_bad (T : Transform Rec) (lines : List JLine)
    (h : JLine.bad ∈ lines) :
    ∀ (buf : List Rec) (synced : Nat) (st : SyncState Rec),
    (jsonlLoop T lines buf synced st).2.2.2 = some Exc.decodeError := by
  induction lines with
  | nil => cases h
  | cons l rest ih =>
    intro buf synced st
    match l with
    | .blank =>
      have hrest : JLine.bad ∈ rest := by
        cases h with
        | tail _ hm => exact hm
      simpa only [jsonlLoop] using ih hrest buf synced st
    | .bad => simp [jsonlLoop]
    | .obj fields =>
      have hrest : JLine.bad ∈ rest := by
        cases h with
        | tail _ hm => exact hm
      simp only [jsonlLoop]
      split
      · exact ih hrest buf synced st
      · split
        · exact ih hrest [] (synced + (buf ++ [T.ofJson fields]).length)
            (emitBatch st (buf ++ [T.ofJson fields]))
        · exact ih hrest (buf ++ [T.ofJson fields]) synced st

/-- Feeding the loop exactly enough nonempty rows to fill the buffer
flushes one full batch and resets the buffer. -/
theorem csvLoop_fill (T : Transform Rec) (chunk : List Row) :
    ∀ (rest : List Row) (buf : List Rec) (synced : Nat) (st : SyncState Rec),
    (∀ r ∈ chunk, r.length ≠ 0) → chunk ≠ [] →
    buf.length + chunk.length = BUFFER_SIZE →
    csvLoop T (chunk ++ rest) buf synced st
      = csvLoop T rest [] (synced + BUFFER_SIZE)
          (emitBatch st (buf ++ chunk.map T.ofCsv)) := by
  induction chunk with
  | nil => intro _ _ _ _ _ hne _; exact absurd rfl hne
  | cons row rs ih =>
    intro rest buf synced st hnz _ hlen
    have h0 : row.length ≠ 0 := hnz row (List.mem_cons_self row rs)
    simp only [List.cons_append, csvLoop, if_neg h0]
    by_cases hrs : rs = []
    · subst hrs
      have hfull : (buf ++ [T.ofCsv row]).length = BUFFER_SIZE := by
        simp at hlen ⊢; omega
      rw [if_pos (le_of_eq hfull.symm)]
      simp only [List.nil_append, hfull]
      rfl
    · have hlt : ¬ BUFFER_SIZE ≤ (buf ++ [T.ofCsv row]).length := by
        have : rs.length ≠ 0 := by
          intro hz; exact hrs (List.length_eq_zero.mp hz)
        simp at hlen ⊢; omega
      rw [if_neg hlt]
      have := ih rest (buf ++ [T.ofCsv row]) synced st
        (fun r hr => hnz r (List.mem_cons_of_mem row hr)) hrs
        (by simp at hlen ⊢; omega)
      simpa using this

/-- Feeding the loop too few nonempty rows to fill the buffer just appends
their records to the buffer. -/
theorem csvLoop_small (T : Transform Rec) (rows : List Row) :
    ∀ (buf : List Rec) (synced : Nat) (st : SyncState Rec),
    (∀ r ∈ rows, r.length ≠ 0) →
    buf.length + rows.length < BUFFER_SIZE →
    csvLoop T rows buf synced st = (buf ++ rows.map T.ofCsv, synced, st) := by
  induction rows with
  | nil => intro buf synced st _ _; simp [csvLoop]
  | cons row rs ih =>
    intro buf synced st hnz hlen
    have h0 : row.length ≠ 0 := hnz row (List.mem_cons_self row rs)
    simp only [csvLoop, if_neg h0]
    have hlt : ¬ BUFFER_SIZE ≤ (buf ++ [T.ofCsv row]).length := by
      simp at hlen ⊢; omega
    rw [if_neg hlt]
    have := ih (buf ++ [T.ofCsv row]) synced st
      (fun r hr => hnz r (List.mem_cons_of_mem row hr))
      (by simp at hlen ⊢; omega)
    simpa using this

/-! Characterizations of the two terminal sync functions. -/

theorem sync_csv_file_iter_ok (T : Transform Rec) (rows : List Row)
    (st : SyncState Rec) :
    (sync_csv_file T (CsvIter.iter rows false) st).2
        = Except.ok (acceptedCsv rows).length ∧
    ((sync_csv_file T (CsvIter.iter rows false) st).1).skipped = st.skipped := by
  rcases hloop : csvLoop T rows [] 0 st with ⟨buf, synced, st2⟩
  have hcount := csvLoop_count T rows [] 0 st
  have hskip := csvLoop_skipped T rows [] 0 st
  rw [hloop] at hcount hskip
  dsimp only at hcount hskip
  simp only [List.length_nil, Nat.add_zero, Nat.zero_add] at hcount
  by_cases hbuf : 0 < buf.length
  · have heq : synced + buf.length = (acceptedCsv rows).length := hcount
    simp [sync_csv_file, hloop, hbuf, emitBatch, heq, hskip]
  · have hb0 : buf.length = 0 := by omega
    have heq : synced = (acceptedCsv rows).length := by omega
    simp [sync_csv_file, hloop, hbuf, heq, hskip]

theorem sync_csv_file_iter_fails (T : Transform Rec) (rows : List Row)
    (st : SyncState Rec) :
    (sync_csv_file T (CsvIter.iter rows true) st).2 = Except.error Exc.decodeError ∧
    ((sync_csv_file T (CsvIter.iter rows true) st).1).skipped = st.skipped := by
  rcases hloop : csvLoop T rows [] 0 st with ⟨buf, synced, st2⟩
  have hskip := csvLoop_skipped T rows [] 0 st
  rw [hloop] at hskip
  simp only [sync_csv_file, hloop, if_pos rfl]
  exact ⟨rfl, by simpa using hskip⟩

theorem sync_jsonl_file_skipped (T : Transform Rec) (lines : List JLine)
    (st : SyncState Rec) :
    ((sync_jsonl_file T lines st).1).skipped = st.skipped := by
  rcases hloop : jsonlLoop T lines [] 0 st with ⟨buf, synced, st2, err⟩
  have hskip := jsonlLoop_skipped T lines [] 0 st
  rw [hloop] at hskip
  simp only at hskip
  match err with
  | some e => simpa [sync_jsonl_file, hloop] using hskip
  | none =>
    simp only [sync_jsonl_file, hloop]
    split
    · simpa [emitBatch] using hskip
    · simpa using hskip

theorem sync_jsonl_file_bad (T : Transform Rec) (lines : List JLine)
    (h : JLine.bad ∈ lines) (st : SyncState Rec) :
    (sync_jsonl_file T lines st).2 = Except.error Exc.decodeError := by
  rcases hloop : jsonlLoop T lines [] 0 st with ⟨buf, synced, st2, err⟩
  have hbad := jsonlLoop_bad T lines h [] 0 st
  rw [hloop] at hbad
  simp only at hbad
  subst hbad
  simp [sync_jsonl_file, hloop]

theorem sync_jsonl_file_all_empty (T : Transform Rec) (lines : List JLine)
    (h : ∀ l ∈ lines, l = JLine.blank ∨ l = JLine.obj []) (st : SyncState Rec) :
    sync_jsonl_file T lines st = (st, Except.ok 0) := by
  simp [sync_jsonl_file, jsonlLoop_all_empty T lines h]

/-! Monotonicity of the skip counter: no function ever decreases it. -/

theorem sync_csv_file_mono (T : Transform Rec) (csv : CsvIter)
    (st : SyncState Rec) :
    st.skipped ≤ ((sync_csv_file T csv st).1).skipped := by
  match csv with
  | .noIterator => simp [sync_csv_file, addSkip]
  | .iter rows fails =>
    rcases hloop : csvLoop T rows [] 0 st with ⟨buf, synced, st2⟩
    have hskip := csvLoop_skipped T rows [] 0 st
    rw [hloop] at hskip
    simp only at hskip
    simp only [sync_csv_file, hloop]
    split
    · simp [hskip]
    · split
      · simp [emitBatch, hskip]
      · simp [hskip]

theorem handle_file_mono (T : Transform Rec) (s3_path ext : String)
    (c : Content) (st : SyncState Rec) :
    st.skipped ≤ ((handle_file T s3_path ext c st).1).skipped := by
  induction s3_path, ext, c, st using handle_file.induct T with
  | case1 s3_path ext c st h =>
    rw [handle_file.eq_def]
    simp only [if_pos h]
    simp [addSkip]
  | case2 s3_path c st htar h =>
    have h2 : ¬ lowerStr s3_path = "gz" := fun hh => h (Or.inr hh)
    rw [handle_file.eq_def]
    simp [h2, htar, addSkip]
  | case3 s3_path st htar csv jsonl zip h =>
    have h2 : ¬ lowerStr s3_path = "gz" := fun hh => h (Or.inr hh)
    simp [handle_file, h2, htar, addSkip]
  | case4 s3_path st htar csv jsonl zip h =>
    have h2 : ¬ lowerStr s3_path = "gz" := fun hh => h (Or.inr hh)
    simp [handle_file, h2, htar]
  | case5 s3_path st htar csv jsonl name inner zip hgz h =>
    have h2 : ¬ lowerStr s3_path = "gz" := fun hh => h (Or.inr hh)
    simp [handle_file, h2, htar, hgz, addSkip]
  | case6 s3_path st htar csv jsonl name inner zip hgz h ih =>
    have h2 : ¬ lowerStr s3_path = "gz" := fun hh => h (Or.inr hh)
    simpa [handle_file, h2, htar, hgz] using ih
  | case7 s3_path ext c st h hgz hcsv =>
    rw [handle_file.eq_def]
    simp only [if_neg h, if_neg hgz, if_pos hcsv]
    exact sync_csv_file_mono T c.csv st
  | case8 s3_path c st st2 hj h hgz hcsv =>
    rw [handle_file.eq_def]
    simp only [if_neg h, if_neg hgz, if_neg hcsv, if_pos rfl, hj]
    have hsk := sync_jsonl_file_skipped T c.jsonl st
    rw [hj] at hsk
    simp only at hsk
    simp [addSkip, hsk]
  | case9 s3_path c st h hgz hcsv hnot =>
    rw [handle_file.eq_def]
    simp only [if_neg h, if_neg hgz, if_neg hcsv, if_pos rfl]
    rcases hj : sync_jsonl_file T c.jsonl st with ⟨st2, res⟩
    have hsk := sync_jsonl_file_skipped T c.jsonl st
    rw [hj] at hsk
    simp only at hsk
    match res with
    | .ok 0 => exact absurd hj (by intro hh; exact hnot st2 hh)
    | .ok (n+1) => simp [hsk]
    | .error e => simp [hsk]
  | case10 s3_path c st h hgz hcsv hjsonl =>
    rw [handle_file.eq_def]
    simp only [if_neg h, if_neg hgz, if_neg hcsv, if_neg hjsonl, if_pos rfl]
    simp [addSkip]
  | case11 s3_path ext c st h hgz hcsv hjsonl hzip =>
    rw [handle_file.eq_def]
    simp only [if_neg h, if_neg hgz, if_neg hcsv, if_neg hjsonl, if_neg hzip]
    simp [addSkip]

theorem sync_compressed_entries_mono (T : Transform Rec) (s3_path : String)
    (entries : List (String × Content)) :
    ∀ (acc : Nat) (st : SyncState Rec),
    st.skipped ≤ ((sync_compressed_entries T s3_path entries acc st).1).skipped := by
  induction entries with
  | nil => intro acc st; simp [sync_compressed_entries]
  | cons e rest ih =>
    intro acc st
    rcases e with ⟨name, ec⟩
    simp only [sync_compressed_entries]
    split
    · rcases hh : handle_file T (s3_path ++ "/" ++ name) (lastExt name) ec st with ⟨st2, res⟩
      have hm := handle_file_mono T (s3_path ++ "/" ++ name) (lastExt name) ec st
      rw [hh] at hm
      simp only at hm
      match res with
      | .ok n => exact le_trans hm (ih (acc + n) st2)
      | .error e => simpa using hm
    · exact ih acc st

theorem sync_table_file_mono (T : Transform Rec) (s3_path : String)
    (c : Content) (st : SyncState Rec) :
    st.skipped ≤ ((sync_table_file T s3_path c st).1).skipped := by
  rw [sync_table_file]
  split
  · simp [addSkip]
  · have key : ∀ p : SyncState Rec × Except Exc Nat,
        st.skipped ≤ p.1.skipped →
        st.skipped ≤ ((match p with
          | (st2, .error .decodeError) => (addSkip st2, Except.ok 0)
          | other => other) : SyncState Rec × Except Exc Nat).1.skipped := by
      rintro ⟨st2, res⟩ hle
      match res with
      | .ok n => exact hle
      | .error .decodeError => simpa [addSkip] using le_trans hle (Nat.le_succ _)
      | .error .genericError => exact hle
    apply key
    split
    · exact sync_compressed_entries_mono T s3_path c.zip 0 st
    · split
      · exact handle_file_mono T s3_path _ c st
      · exact le_refl _

theorem syncFiles_mono (T : Transform Rec) (files : List S3File) :
    ∀ (acc : Nat) (st : SyncState Rec) (writes : List String),
    st.skipped ≤ ((syncFiles T files acc st writes).1).skipped := by
  induction files with
  | nil => intro acc st writes; simp [syncFiles]
  | cons f rest ih =>
    intro acc st writes
    simp only [syncFiles]
    rcases hh : sync_table_file T f.key f.content st with ⟨st2, res⟩
    have hm := sync_table_file_mono T f.key f.content st
    rw [hh] at hm
    simp only at hm
    match res with
    | .ok n => exact le_trans hm (ih (acc + n) st2 (writes ++ [f.last_modified]))
    | .error e => simpa using hm

theorem sync_stream_mono (T : Transform Rec) (files : List S3File)
    (st : SyncState Rec) :
    st.skipped ≤ ((sync_stream T files st).state).skipped := by
  rw [sync_stream]
  rcases hh : syncFiles T (files.mergeSort fun a b => a.key ≤ b.key) 0 st []
    with ⟨st2, writes, res⟩
  have hm := syncFiles_mono T (files.mergeSort fun a b => a.key ≤ b.key) 0 st []
  rw [hh] at hm
  simp only at hm
  match res with
  | .ok n => simpa [hh] using hm
  | .error e => simpa [hh] using hm

/-! Reduction lemmas: how the dispatchers unfold on each extension class. -/

theorem handle_file_gz_eq (T : Transform Rec) (s3_path : String) (c : Content)
    (st : SyncState Rec) (h2 : ¬ lowerStr s3_path = "gz") :
    handle_file T s3_path "gz" c st = sync_gz_file T s3_path c st := by
  rcases c with ⟨csv, jsonl, gz, zip⟩
  rw [handle_file.eq_def, sync_gz_file]
  by_cases htar : strEndsWith s3_path ".tar.gz" = true
  · simp [h2, htar]
  · cases gz with
    | attrError => simp [h2, htar, Content.gz]
    | noName => simp [h2, htar, Content.gz]
    | named name inner =>
      by_cases hgz : strEndsWith name ".gz" = true <;>
        simp [h2, htar, hgz, Content.gz]

theorem handle_file_csv_eq (T : Transform Rec) (s3_path ext : String)
    (c : Content) (st : SyncState Rec) (hext : ext = "csv" ∨ ext = "txt")
    (hlow : ¬ lowerStr s3_path = ext) :
    handle_file T s3_path ext c st = sync_csv_file T c.csv st := by
  rw [handle_file.eq_def]
  rcases hext with hext | hext <;> subst hext <;> simp [hlow]

theorem handle_file_jsonl_eq (T : Transform Rec) (s3_path : String)
    (c : Content) (st : SyncState Rec) (hlow : ¬ lowerStr s3_path = "jsonl") :
    handle_file T s3_path "jsonl" c st =
      match sync_jsonl_file T c.jsonl st with
      | (st2, .ok 0) => (addSkip st2, Except.ok 0)
      | other => other := by
  rw [handle_file.eq_def]
  simp [hlow]

theorem sync_table_file_eq_handle (T : Transform Rec) (s3_path : String)
    (c : Content) (st : SyncState Rec)
    (hext : lastExt s3_path = "csv" ∨ lastExt s3_path = "gz" ∨
            lastExt s3_path = "jsonl" ∨ lastExt s3_path = "txt")
    (hlow : ¬ lowerStr s3_path = lastExt s3_path) :
    sync_table_file T s3_path c st =
      match handle_file T s3_path (lastExt s3_path) c st with
      | (st2, .error .decodeError) => (addSkip st2, Except.ok 0)
      | other => other := by
  rw [sync_table_file]
  rcases hext with hext | hext | hext | hext <;>
    rw [hext] <;> rw [hext] at hlow <;> simp [hlow, hext]

theorem sync_table_file_zip_eq (T : Transform Rec) (s3_path : String)
    (c : Content) (st : SyncState Rec) (hext : lastExt s3_path = "zip")
    (hlow : ¬ lowerStr s3_path = "zip") :
    sync_table_file T s3_path c st =
      match sync_compressed_file T s3_path c st with
      | (st2, .error .decodeError) => (addSkip st2, Except.ok 0)
      | other => other := by
  rw [sync_table_file]
  simp [hext, hlow]

/-- sync.py lines 85-86: an object whose (top-level) extension is none of
zip, csv, gz, jsonl, txt is only warned about: no skip count, no records,
no batches. -/
theorem sync_table_file_unknown_ext (T : Transform Rec) (s3_path : String)
    (c : Content) (st : SyncState Rec)
    (hne : ¬ lastExt s3_path = "") (hlow : ¬ lowerStr s3_path = lastExt s3_path)
    (hzip : ¬ lastExt s3_path = "zip") (hcsv : ¬ lastExt s3_path = "csv")
    (hgz : ¬ lastExt s3_path = "gz") (hjsonl : ¬ lastExt s3_path = "jsonl")
    (htxt : ¬ lastExt s3_path = "txt") :
    sync_table_file T s3_path c st = (st, Except.ok 0) := by
  rw [sync_table_file]
  simp [hne, hlow, hzip, hcsv, hgz, hjsonl, htxt]

/-- sync.py lines 76-79: an extensionless object is skipped and counted. -/
theorem sync_table_file_no_ext (T : Transform Rec) (s3_path : String)
    (c : Content) (st : SyncState Rec)
    (h : lastExt s3_path = "" ∨ lowerStr s3_path = lastExt s3_path) :
    sync_table_file T s3_path c st = (addSkip st, Except.ok 0) := by
  rw [sync_table_file]
  simp [h]

/-! Support for the orchestrator-level claims. -/

theorem syncFiles_ok_writes (T : Transform Rec) (files : List S3File) :
    ∀ (acc : Nat) (st : SyncState Rec) (writes : List String)
      (st2 : SyncState Rec) (writes2 : List String) (n : Nat),
    syncFiles T files acc st writes = (st2, writes2, Except.ok n) →
    writes2 = writes ++ files.map (fun f => f.last_modified) := by
  induction files with
  | nil =>
    intro acc st writes st2 writes2 n h
    simp only [syncFiles, Prod.mk.injEq] at h
    simp [h.2.1]
  | cons f rest ih =>
    intro acc st writes st2 writes2 n h
    simp only [syncFiles] at h
    rcases hh : sync_table_file T f.key f.content st with ⟨st3, res⟩
    rw [hh] at h
    match res with
    | .ok m =>
      have := ih (acc + m) st3 (writes ++ [f.last_modified]) st2 writes2 n h
      simpa using this
    | .error e => simp at h

theorem pairwise_rel_getLast {α : Type} {R : α → α → Prop} :
    ∀ (l : List α) (hne : l ≠ []) (x : α), l.Pairwise R → x ∈ l →
      x = l.getLast hne ∨ R x (l.getLast hne) := by
  intro l
  induction l with
  | nil => intro hne; exact absurd rfl hne
  | cons a t ih =>
    intro hne x hp hx
    cases t with
    | nil =>
      left
      simp only [List.mem_singleton] at hx
      simp [hx, List.getLast]
    | cons b t2 =>
      have hne2 : b :: t2 ≠ [] := by simp
      rw [List.getLast_cons hne2]
      rcases List.mem_cons.mp hx with hxa | hxt
      · subst hxa
        right
        exact (List.pairwise_cons.mp hp).1 _ (List.getLast_mem hne2)
      · exact ih hne2 x (List.pairwise_cons.mp hp).2 hxt

theorem mergeSort_key_sorted (files : List S3File) :
    List.Pairwise (fun a b : S3File => a.key ≤ b.key)
      (files.mergeSort (fun a b => a.key ≤ b.key)) := by
  have htrans : ∀ (a b c : S3File), (decide (a.key ≤ b.key)) = true →
      (decide (b.key ≤ c.key)) = true → (decide (a.key ≤ c.key)) = true := by
    intro a b c hab hbc
    simp only [decide_eq_true_eq] at hab hbc ⊢
    exact le_trans hab hbc
  have htotal : ∀ (a b : S3File),
      ((decide (a.key ≤ b.key)) || (decide (b.key ≤ a.key))) = true := by
    intro a b
    simp only [Bool.or_eq_true, decide_eq_true_eq]
    exact le_total _ _
  have hs := List.sorted_mergeSort htrans htotal files
  exact hs.imp (fun {a b} hab => by simpa using hab)

theorem mergeSort_key_ne_nil (files : List S3File) (hne : files ≠ []) :
    files.mergeSort (fun a b => a.key ≤ b.key) ≠ [] := by
  intro h0
  have hperm := List.mergeSort_perm files (fun a b => a.key ≤ b.key)
  rw [h0] at hperm
  exact hne (List.perm_nil.mp hperm.symm)

/-- On a run that returns without an uncaught exception, the persisted
bookmark values are exactly the last_modified values of the key-sorted
files, one write per file, in processing order. -/
theorem sync_stream_ok_writes (T : Transform Rec) (files : List S3File)
    (st : SyncState Rec) (n : Nat)
    (hok : (sync_stream T files st).result = Except.ok n) :
    (sync_stream T files st).bookmarkWrites
      = (files.mergeSort (fun a b => a.key ≤ b.key)).map
          (fun f => f.last_modified) := by
  rcases hrun : syncFiles T (files.mergeSort (fun a b => a.key ≤ b.key)) 0 st []
    with ⟨st2, writes, res⟩
  simp only [sync_stream, hrun] at hok ⊢
  cases res with
  | ok m =>
    simpa using syncFiles_ok_writes T _ 0 st [] st2 writes m hrun
  | error e => simp at hok

/-- C1: for every table sync that completes without a fatal error and
enumerates at least one object, the bookmark persisted at the end of the
sync equals the last_modified of the object whose key is lexically
greatest among the processed objects. -/
theorem claim_C1_final_bookmark_lexmax_key (T : Transform Rec)
    (files : List S3File) (st : SyncState Rec) (n : Nat) (hne : files ≠ [])
    (hok : (sync_stream T files st).result = Except.ok n) :
    ∃ f ∈ files,
      ((sync_stream T files st).bookmarkWrites).getLast? = some f.last_modified ∧
      ∀ g ∈ files, g.key ≤ f.key := by
  have hwrites := sync_stream_ok_writes T files st n hok
  have hsne := mergeSort_key_ne_nil files hne
  have hperm := List.mergeSort_perm files (fun a b => a.key ≤ b.key)
  refine ⟨(files.mergeSort (fun a b => a.key ≤ b.key)).getLast hsne,
    hperm.mem_iff.mp (List.getLast_mem hsne), ?_, ?_⟩
  · rw [hwrites, List.getLast?_map, List.getLast?_eq_getLast _ hsne]
    rfl
  · intro g hg
    have hgs : g ∈ files.mergeSort (fun a b => a.key ≤ b.key) :=
      hperm.mem_iff.mpr hg
    rcases pairwise_rel_getLast _ hsne g (mergeSort_key_sorted files) hgs
      with he | hle
    · rw [he]
    · exact hle

/-- A trivial transformer and contents for concrete runs. -/
def T0 : Transform Nat := ⟨fun _ => 0, fun _ => 0⟩

/-- An object whose bytes mean nothing under any parser. -/
def c0 : Content := .mk .noIterator [] .attrError []

def files1 : List S3File := [⟨"a.x", "2024-05-02T00:00:00", c0⟩]

theorem claim_C1_witness :
    ∃ f ∈ files1,
      ((sync_stream T0 files1 ⟨0, []⟩).bookmarkWrites).getLast?
          = some f.last_modified ∧
      ∀ g ∈ files1, g.key ≤ f.key :=
  claim_C1_final_bookmark_lexmax_key T0 files1 ⟨0, []⟩ 0
    (by simp [files1])
    (by
      have hms : files1.mergeSort (fun a b => a.key ≤ b.key) = files1 := by
        simp [files1, List.mergeSort]
      rw [sync_stream.eq_def, hms]
      rfl)

/-- C2 counterexample: two objects whose key order is opposite to their
last_modified order. Both objects are enumerated and processed (their
unknown ".x" extension is merely warned about), so both bookmarks are
persisted, in ascending key order "a.x" then "b.x", i.e. timestamp
2024-05-02 then 2024-05-01: the persisted bookmark sequence of this
successful run is not monotonically non-decreasing. -/
def files2 : List S3File :=
  [⟨"a.x", "2024-05-02T00:00:00", c0⟩, ⟨"b.x", "2024-05-01T00:00:00", c0⟩]

theorem claim_C2_counterexample :
    (sync_stream T0 files2 ⟨0, []⟩).result = Except.ok 0 ∧
    ¬ List.Pairwise (fun a b : String => a ≤ b)
        ((sync_stream T0 files2 ⟨0, []⟩).bookmarkWrites) := by
  have hms : files2.mergeSort (fun a b => a.key ≤ b.key) = files2 := by
    simp [files2, List.mergeSort, List.merge]
    decide
  have hrun : sync_stream T0 files2 ⟨0, []⟩
      = { state := ⟨0, []⟩,
          bookmarkWrites := ["2024-05-02T00:00:00", "2024-05-01T00:00:00"],
          warned := none, result := Except.ok 0 } := by
    rw [sync_stream.eq_def, hms]
    rfl
  rw [hrun]
  refine ⟨rfl, ?_⟩
  have hnle : ¬ ("2024-05-02T00:00:00" : String) ≤ "2024-05-01T00:00:00" := by
    simp
    decide
  exact fun hp => hnle ((List.pairwise_cons.mp hp).1 _ (by simp))

/-- C2 (amended): during a successful run the persisted bookmark sequence
is the last_modified of each processed object in ascending-key order: one
value per object, each persisted only after that object's processing (and
hence the emission of all its rows) has completed — but, because the
processing order is key order rather than timestamp order, the sequence is
not necessarily monotonically non-decreasing. -/
theorem claim_C2_amended_bookmarks_follow_key_order (T : Transform Rec)
    (files : List S3File) (st : SyncState Rec) (n : Nat)
    (hok : (sync_stream T files st).result = Except.ok n) :
    (sync_stream T files st).bookmarkWrites
      = (files.mergeSort (fun a b => a.key ≤ b.key)).map
          (fun f => f.last_modified) ∧
    List.Pairwise (fun a b : S3File => a.key ≤ b.key)
      (files.mergeSort (fun a b => a.key ≤ b.key)) :=
  ⟨sync_stream_ok_writes T files st n hok, mergeSort_key_sorted files⟩

theorem claim_C2_amended_witness :
    (sync_stream T0 files1 ⟨0, []⟩).bookmarkWrites
      = (files1.mergeSort (fun a b => a.key ≤ b.key)).map
          (fun f => f.last_modified) ∧
    List.Pairwise (fun a b : S3File => a.key ≤ b.key)
      (files1.mergeSort (fun a b => a.key ≤ b.key)) :=
  claim_C2_amended_bookmarks_follow_key_order T0 files1 ⟨0, []⟩ 0
    (by
      have hms : files1.mergeSort (fun a b => a.key ≤ b.key) = files1 := by
        simp [files1, List.mergeSort]
      rw [sync_stream.eq_def, hms]
      rfl)

/-- C6: for every gz object (not a .tar.gz, and not mistaken for an
extensionless key) whose gzip header carries no recoverable original
filename, the object is skipped: the skip counter is incremented by exactly
one, no records and no batches are produced (addSkip leaves the batch log
untouched), and no error propagates to the caller; the content is never
examined further, so no filename is inferred. -/
theorem claim_C6_gz_missing_name_skipped (T : Transform Rec)
    (s3_path : String) (c : Content) (st : SyncState Rec)
    (hext : lastExt s3_path = "gz") (hlow : ¬ lowerStr s3_path = "gz")
    (htar : ¬ strEndsWith s3_path ".tar.gz" = true)
    (hgz : c.gz = GzParse.attrError) :
    sync_table_file T s3_path c st = (addSkip st, Except.ok 0) := by
  have hlow2 : ¬ lowerStr s3_path = lastExt s3_path := by rw [hext]; exact hlow
  rw [sync_table_file_eq_handle T s3_path c st (Or.inr (Or.inl hext)) hlow2,
    hext, handle_file_gz_eq T s3_path c st hlow, sync_gz_file]
  simp [htar, hgz]

theorem claim_C6_witness :
    sync_table_file T0 "data.gz" c0 ⟨0, []⟩ = (addSkip ⟨0, []⟩, Except.ok 0) :=
  claim_C6_gz_missing_name_skipped T0 "data.gz" c0 ⟨0, []⟩
    (by decide) (by decide) (by decide) rfl

/-- C7: an object from which zero usable raw rows are extracted is counted
as skipped — (a) a delimited object whose bytes yield no row iterator, and
(b) a JSON-lines object all of whose lines are blank or empty objects, each
increment the counter by exactly one and emit nothing — while (c) an object
whose rows are all accepted is never counted as skipped, whatever the
transformer leaves in each record (in particular when every field was
filtered out), and its record count is the number of accepted rows. -/
theorem claim_C7_empty_object_skipped_filtered_not (T : Transform Rec)
    (s3_path : String) (c : Content) (st : SyncState Rec) :
    ((lastExt s3_path = "csv" ∨ lastExt s3_path = "txt") →
      ¬ lowerStr s3_path = lastExt s3_path →
      c.csv = CsvIter.noIterator →
      sync_table_file T s3_path c st = (addSkip st, Except.ok 0)) ∧
    (lastExt s3_path = "jsonl" →
      ¬ lowerStr s3_path = "jsonl" →
      (∀ l ∈ c.jsonl, l = JLine.blank ∨ l = JLine.obj []) →
      sync_table_file T s3_path c st = (addSkip st, Except.ok 0)) ∧
    (∀ rows : List Row,
      (lastExt s3_path = "csv" ∨ lastExt s3_path = "txt") →
      ¬ lowerStr s3_path = lastExt s3_path →
      c.csv = CsvIter.iter rows false →
      (sync_table_file T s3_path c st).2 = Except.ok (acceptedCsv rows).length ∧
      ((sync_table_file T s3_path c st).1).skipped = st.skipped) := by
  refine ⟨?_, ?_, ?_⟩
  · intro hext hlow hcsv
    rw [sync_table_file_eq_handle T s3_path c st
        (by rcases hext with h | h; exacts [Or.inl h, Or.inr (Or.inr (Or.inr h))]) hlow,
      handle_file_csv_eq T s3_path (lastExt s3_path) c st
        (by rcases hext with h | h; exacts [Or.inl h, Or.inr h]) hlow,
      hcsv]
    rfl
  · intro hext hlow hempty
    have hlow2 : ¬ lowerStr s3_path = lastExt s3_path := by rw [hext]; exact hlow
    rw [sync_table_file_eq_handle T s3_path c st (Or.inr (Or.inr (Or.inl hext))) hlow2,
      hext, handle_file_jsonl_eq T s3_path c st hlow,
      sync_jsonl_file_all_empty T c.jsonl hempty st]
  · intro rows hext hlow hcsv
    rw [sync_table_file_eq_handle T s3_path c st
        (by rcases hext with h | h; exacts [Or.inl h, Or.inr (Or.inr (Or.inr h))]) hlow,
      handle_file_csv_eq T s3_path (lastExt s3_path) c st
        (by rcases hext with h | h; exacts [Or.inl h, Or.inr h]) hlow,
      hcsv]
    rcases hs : sync_csv_file T (CsvIter.iter rows false) st with ⟨st2, res⟩
    have hok := sync_csv_file_iter_ok T rows st
    rw [hs] at hok
    simp only at hok
    rw [hok.1]
    exact ⟨rfl, hok.2⟩

def cJempty : Content := .mk .noIterator [JLine.blank, JLine.obj []] .attrError []

def cRows2 : Content := .mk (.iter [["a"], ["b"]] false) [] .attrError []

theorem claim_C7_witness :
    sync_table_file T0 "d.csv" c0 ⟨0, []⟩ = (addSkip ⟨0, []⟩, Except.ok 0) ∧
    sync_table_file T0 "d.jsonl" cJempty ⟨0, []⟩ = (addSkip ⟨0, []⟩, Except.ok 0) ∧
    ((sync_table_file T0 "d.csv" cRows2 ⟨5, []⟩).2
        = Except.ok (acceptedCsv [["a"], ["b"]]).length ∧
      ((sync_table_file T0 "d.csv" cRows2 ⟨5, []⟩).1).skipped = 5) :=
  ⟨(claim_C7_empty_object_skipped_filtered_not T0 "d.csv" c0 ⟨0, []⟩).1
      (Or.inl (by decide)) (by decide) rfl,
   (claim_C7_empty_object_skipped_filtered_not T0 "d.jsonl" cJempty ⟨0, []⟩).2.1
      (by decide) (by decide) (by decide),
   (claim_C7_empty_object_skipped_filtered_not T0 "d.csv" cRows2 ⟨5, []⟩).2.2
      [["a"], ["b"]] (Or.inl (by decide)) (by decide) rfl⟩

/-- C5: a decode failure raised while iterating an object's rows — a text
decoding failure in a delimited object, or an undecodable line in a
JSON-lines object — is caught in sync_table_file: the object is counted as
skipped exactly once, the call returns 0 records instead of propagating the
error, and therefore the enclosing per-table loop continues with the next
object. -/
theorem claim_C5_decode_failure_caught_counted (T : Transform Rec)
    (s3_path : String) (c : Content) (st : SyncState Rec) :
    (∀ rows : List Row,
      (lastExt s3_path = "csv" ∨ lastExt s3_path = "txt") →
      ¬ lowerStr s3_path = lastExt s3_path →
      c.csv = CsvIter.iter rows true →
      (sync_table_file T s3_path c st).2 = Except.ok 0 ∧
      ((sync_table_file T s3_path c st).1).skipped = st.skipped + 1) ∧
    (lastExt s3_path = "jsonl" →
      ¬ lowerStr s3_path = "jsonl" →
      JLine.bad ∈ c.jsonl →
      (sync_table_file T s3_path c st).2 = Except.ok 0 ∧
      ((sync_table_file T s3_path c st).1).skipped = st.skipped + 1) := by
  constructor
  · intro rows hext hlow hcsv
    rw [sync_table_file_eq_handle T s3_path c st
        (by rcases hext with h | h; exacts [Or.inl h, Or.inr (Or.inr (Or.inr h))]) hlow,
      handle_file_csv_eq T s3_path (lastExt s3_path) c st
        (by rcases hext with h | h; exacts [Or.inl h, Or.inr h]) hlow,
      hcsv]
    rcases hs : sync_csv_file T (CsvIter.iter rows true) st with ⟨st2, res⟩
    have hf := sync_csv_file_iter_fails T rows st
    rw [hs] at hf
    simp only at hf
    rw [hf.1]
    exact ⟨rfl, by simp [addSkip, hf.2]⟩
  · intro hext hlow hbad
    have hlow2 : ¬ lowerStr s3_path = lastExt s3_path := by rw [hext]; exact hlow
    rw [sync_table_file_eq_handle T s3_path c st (Or.inr (Or.inr (Or.inl hext))) hlow2,
      hext, handle_file_jsonl_eq T s3_path c st hlow]
    rcases hs : sync_jsonl_file T c.jsonl st with ⟨st2, res⟩
    have hb := sync_jsonl_file_bad T c.jsonl hbad st
    have hsk := sync_jsonl_file_skipped T c.jsonl st
    rw [hs] at hb hsk
    simp only at hb hsk
    rw [hb]
    exact ⟨rfl, by simp [addSkip, hsk]⟩

def cCsvFail : Content := .mk (.iter [["a"]] true) [] .attrError []

def cJsonBad : Content := .mk .noIterator [JLine.bad] .attrError []

theorem claim_C5_witness :
    ((sync_table_file T0 "d.csv" cCsvFail ⟨0, []⟩).2 = Except.ok 0 ∧
     ((sync_table_file T0 "d.csv" cCsvFail ⟨0, []⟩).1).skipped = 0 + 1) ∧
    ((sync_table_file T0 "d.jsonl" cJsonBad ⟨0, []⟩).2 = Except.ok 0 ∧
     ((sync_table_file T0 "d.jsonl" cJsonBad ⟨0, []⟩).1).skipped = 0 + 1) :=
  ⟨(claim_C5_decode_failure_caught_counted T0 "d.csv" cCsvFail ⟨0, []⟩).1
      [["a"]] (Or.inl (by decide)) (by decide) rfl,
   (claim_C5_decode_failure_caught_counted T0 "d.jsonl" cJsonBad ⟨0, []⟩).2
      (by decide) (by decide) (by decide)⟩

/-- C8: with buffer capacity 100 (BUFFER_SIZE), an object producing 250
accepted rows hands exactly 3 batches to the downstream sink, of sizes 100,
100 and 50, whose concatenation is the transformed rows in original order. -/
theorem claim_C8_250_rows_three_batches (T : Transform Rec) (rows : List Row)
    (st : SyncState Rec) (hlen : rows.length = 250)
    (hnz : ∀ r ∈ rows, r.length ≠ 0) :
    sync_csv_file T (CsvIter.iter rows false) st
      = ({ st with batches := st.batches ++
            [(rows.take 100).map T.ofCsv,
             ((rows.drop 100).take 100).map T.ofCsv,
             (rows.drop 200).map T.ofCsv] }, Except.ok 250) ∧
    ((rows.take 100).map T.ofCsv).length = 100 ∧
    (((rows.drop 100).take 100).map T.ofCsv).length = 100 ∧
    ((rows.drop 200).map T.ofCsv).length = 50 := by
  have l1 : (rows.take 100).length = 100 := by
    rw [List.length_take, hlen]; omega
  have ld : (rows.drop 100).length = 150 := by rw [List.length_drop, hlen]
  have l2 : ((rows.drop 100).take 100).length = 100 := by
    rw [List.length_take, ld]; omega
  have l3 : (rows.drop 200).length = 50 := by rw [List.length_drop, hlen]
  have hdd : (rows.drop 100).drop 100 = rows.drop 200 := by
    rw [List.drop_drop]
  have hsplit : rows = rows.take 100 ++ ((rows.drop 100).take 100 ++ rows.drop 200) := by
    conv_lhs => rw [(List.take_append_drop 100 rows).symm]
    rw [← hdd, List.take_append_drop 100 (rows.drop 100)]
  have hnz1 : ∀ r ∈ rows.take 100, r.length ≠ 0 :=
    fun r hr => hnz r (List.take_subset _ _ hr)
  have hnz2 : ∀ r ∈ (rows.drop 100).take 100, r.length ≠ 0 :=
    fun r hr => hnz r (List.drop_subset _ _ (List.take_subset _ _ hr))
  have hnz3 : ∀ r ∈ rows.drop 200, r.length ≠ 0 :=
    fun r hr => hnz r (List.drop_subset _ _ hr)
  have hne1 : rows.take 100 ≠ [] := by
    intro h; rw [h] at l1; simp at l1
  have hne2 : (rows.drop 100).take 100 ≠ [] := by
    intro h; rw [h] at l2; simp at l2
  have hloop : csvLoop T rows [] 0 st
      = ((rows.drop 200).map T.ofCsv, 0 + BUFFER_SIZE + BUFFER_SIZE,
         emitBatch (emitBatch st ((rows.take 100).map T.ofCsv))
           (((rows.drop 100).take 100).map T.ofCsv)) := by
    conv_lhs => rw [hsplit]
    rw [csvLoop_fill T (rows.take 100) ((rows.drop 100).take 100 ++ rows.drop 200)
        [] 0 st hnz1 hne1 (by simp [l1, BUFFER_SIZE]),
      csvLoop_fill T ((rows.drop 100).take 100) (rows.drop 200)
        [] (0 + BUFFER_SIZE) _ hnz2 hne2 (by simp [l2, BUFFER_SIZE]),
      csvLoop_small T (rows.drop 200) [] (0 + BUFFER_SIZE + BUFFER_SIZE) _
        hnz3 (by simp [l3, BUFFER_SIZE])]
    simp
  refine ⟨?_, by rw [List.length_map, l1], by rw [List.length_map, l2],
    by rw [List.length_map, l3]⟩
  simp only [sync_csv_file, hloop]
  have hpos : 0 < ((rows.drop 200).map T.ofCsv).length := by
    rw [List.length_map, l3]; norm_num
  simp only [Bool.false_eq_true, if_false, if_pos hpos, emitBatch]
  rw [List.length_map, l3]
  simp [BUFFER_SIZE, List.append_assoc]

theorem claim_C8_witness :
    sync_csv_file T0 (CsvIter.iter (List.replicate 250 ["x"]) false) ⟨0, []⟩
      = ({ skipped := 0, batches := [] ++
            [((List.replicate 250 ["x"]).take 100).map T0.ofCsv,
             (((List.replicate 250 ["x"]).drop 100).take 100).map T0.ofCsv,
             ((List.replicate 250 ["x"]).drop 200).map T0.ofCsv] }, Except.ok 250) ∧
    (((List.replicate 250 ["x"]).take 100).map T0.ofCsv).length = 100 ∧
    ((((List.replicate 250 ["x"]).drop 100).take 100).map T0.ofCsv).length = 100 ∧
    (((List.replicate 250 ["x"]).drop 200).map T0.ofCsv).length = 50 :=
  claim_C8_250_rows_three_batches T0 (List.replicate 250 ["x"]) ⟨0, []⟩
    (by rfl)
    (by intro r hr; rw [List.eq_of_mem_replicate hr]; decide)

/-- The extensions a zip member must have to be handed to handle_file
(sync.py line 196). -/
def handledZipExt (name : String) : Bool :=
  decide (lastExt name = "csv" ∨ lastExt name = "jsonl" ∨
          lastExt name = "gz" ∨ lastExt name = "txt")

/-- C4 (amended): a zip member whose derived extension is not one of
csv/jsonl/gz/txt — in particular a nested .zip member — is ignored entirely:
it is never handed to handle_file, so it increments no counter and emits
nothing; processing a zip equals processing only its handled-extension
members. Terminal members still yield their records: a zip holding
part1.csv (with accepted rows) and part2.gz.zip returns exactly part1.csv's
record count and leaves the skip counter unchanged. -/
theorem claim_C4_amended_nested_zip_member_ignored (T : Transform Rec) :
    (∀ (s3_path : String) (entries : List (String × Content)) (acc : Nat)
       (st : SyncState Rec),
      sync_compressed_entries T s3_path entries acc st
        = sync_compressed_entries T s3_path
            (entries.filter (fun e => handledZipExt e.1)) acc st) ∧
    (∀ (rows : List Row) (e2 : Content) (cv : CsvIter) (jl : List JLine)
       (gz : GzParse Content) (st : SyncState Rec),
      (sync_table_file T "data.zip"
          (Content.mk cv jl gz
            [("part1.csv", Content.mk (CsvIter.iter rows false) [] GzParse.attrError []),
             ("part2.gz.zip", e2)]) st).2
        = Except.ok (acceptedCsv rows).length ∧
      ((sync_table_file T "data.zip"
          (Content.mk cv jl gz
            [("part1.csv", Content.mk (CsvIter.iter rows false) [] GzParse.attrError []),
             ("part2.gz.zip", e2)]) st).1).skipped = st.skipped) := by
  constructor
  · intro s3_path entries
    induction entries with
    | nil => intro acc st; rfl
    | cons e rest ih =>
      intro acc st
      rcases e with ⟨name, ec⟩
      by_cases hcond : lastExt name = "csv" ∨ lastExt name = "jsonl" ∨
          lastExt name = "gz" ∨ lastExt name = "txt"
      · have hfc : List.filter (fun e : String × Content => handledZipExt e.1)
            ((name, ec) :: rest)
            = (name, ec) :: List.filter (fun e => handledZipExt e.1) rest := by
          simp [List.filter_cons, handledZipExt, hcond]
        rw [hfc]
        simp only [sync_compressed_entries, if_pos hcond]
        rcases hh : handle_file T (s3_path ++ "/" ++ name) (lastExt name) ec st
          with ⟨st2, res⟩
        match res with
        | .ok n => exact ih (acc + n) st2
        | .error e => rfl
      · have hfc : List.filter (fun e : String × Content => handledZipExt e.1)
            ((name, ec) :: rest)
            = List.filter (fun e => handledZipExt e.1) rest := by
          simp [List.filter_cons, handledZipExt, hcond]
        rw [hfc]
        simp only [sync_compressed_entries, if_neg hcond]
        exact ih acc st
  · intro rows e2 cv jl gz st
    have h1 : handle_file T ("data.zip" ++ "/" ++ "part1.csv") (lastExt "part1.csv")
        (Content.mk (CsvIter.iter rows false) [] GzParse.attrError []) st
        = sync_csv_file T (CsvIter.iter rows false) st := by
      rw [handle_file_csv_eq T _ _ _ _ (Or.inl (by decide)) (by decide)]
      rfl
    rcases hs : sync_csv_file T (CsvIter.iter rows false) st with ⟨st2, res⟩
    have hok := sync_csv_file_iter_ok T rows st
    rw [hs] at hok
    simp only at hok
    have h2 : sync_compressed_entries T "data.zip"
        [("part1.csv", Content.mk (CsvIter.iter rows false) [] GzParse.attrError []),
         ("part2.gz.zip", e2)] 0 st
        = (st2, Except.ok (acceptedCsv rows).length) := by
      simp only [sync_compressed_entries]
      rw [if_pos (by decide : lastExt "part1.csv" = "csv" ∨ lastExt "part1.csv" = "jsonl" ∨
            lastExt "part1.csv" = "gz" ∨ lastExt "part1.csv" = "txt")]
      rw [h1, hs, hok.1]
      dsimp only
      rw [if_neg (by decide : ¬ (lastExt "part2.gz.zip" = "csv" ∨ lastExt "part2.gz.zip" = "jsonl" ∨
            lastExt "part2.gz.zip" = "gz" ∨ lastExt "part2.gz.zip" = "txt"))]
      simp [sync_compressed_entries]
    rw [sync_table_file_zip_eq T "data.zip" _ st (by decide) (by decide),
      sync_compressed_file]
    have hz : (Content.mk cv jl gz
        [("part1.csv", Content.mk (CsvIter.iter rows false) [] GzParse.attrError []),
         ("part2.gz.zip", e2)]).zip
        = [("part1.csv", Content.mk (CsvIter.iter rows false) [] GzParse.attrError []),
           ("part2.gz.zip", e2)] := rfl
    rw [hz, h2]
    exact ⟨rfl, hok.2⟩

def cPart1 : Content := .mk (.iter [["a"]] false) [] .attrError []

def cZipNested : Content :=
  .mk .noIterator [] .attrError [("part1.csv", cPart1), ("part2.gz.zip", c0)]

/-- C4 counterexample: a zip with members part1.csv (one accepted row) and
part2.gz.zip. The claim says the nested entry is counted as skipped; the
code ignores it without counting (skip counter stays 0, claim demands 1),
while part1.csv yields its one record in one batch. -/
theorem claim_C4_counterexample :
    sync_table_file T0 "data.zip" cZipNested ⟨0, []⟩
      = (⟨0, [[0]]⟩, Except.ok 1) := by
  have h1 : handle_file T0 ("data.zip" ++ "/" ++ "part1.csv") (lastExt "part1.csv")
      cPart1 (⟨0, []⟩ : SyncState Nat) = (⟨0, [[0]]⟩, Except.ok 1) := by
    rw [handle_file_csv_eq T0 _ _ _ _ (Or.inl (by decide)) (by decide)]
    rfl
  have h2 : sync_compressed_entries T0 "data.zip" cZipNested.zip 0 ⟨0, []⟩
      = (⟨0, [[0]]⟩, Except.ok 1) := by
    show sync_compressed_entries T0 "data.zip"
        [("part1.csv", cPart1), ("part2.gz.zip", c0)] 0 ⟨0, []⟩ = _
    simp only [sync_compressed_entries]
    rw [if_pos (by decide : lastExt "part1.csv" = "csv" ∨ lastExt "part1.csv" = "jsonl" ∨
          lastExt "part1.csv" = "gz" ∨ lastExt "part1.csv" = "txt")]
    rw [h1]
    dsimp only
    rw [if_neg (by decide : ¬ (lastExt "part2.gz.zip" = "csv" ∨ lastExt "part2.gz.zip" = "jsonl" ∨
          lastExt "part2.gz.zip" = "gz" ∨ lastExt "part2.gz.zip" = "txt"))]
  rw [sync_table_file_zip_eq T0 "data.zip" cZipNested ⟨0, []⟩ (by decide) (by decide),
    sync_compressed_file, h2]

/-- C3 (amended): skip accounting per reason. An extensionless object, a gz
object with unrecoverable header name (MissingArchiveMetadata), and an
empty object (delimited or JSON-lines) each increment the skip counter by
exactly one with zero records and no batch emitted; a MalformedContent
(decode-failure) object increments the counter by exactly one and returns
zero records, but the batches its row loop flushed before the failure
remain emitted; a top-level object with an unknown extension is skipped
with only a warning — the counter is NOT incremented. -/
theorem claim_C3_amended_skip_accounting (T : Transform Rec)
    (s3_path : String) (c : Content) (st : SyncState Rec) :
    ((lastExt s3_path = "" ∨ lowerStr s3_path = lastExt s3_path) →
      sync_table_file T s3_path c st = (addSkip st, Except.ok 0)) ∧
    ((¬ lastExt s3_path = "") → (¬ lowerStr s3_path = lastExt s3_path) →
      (¬ lastExt s3_path = "zip") → (¬ lastExt s3_path = "csv") →
      (¬ lastExt s3_path = "gz") → (¬ lastExt s3_path = "jsonl") →
      (¬ lastExt s3_path = "txt") →
      sync_table_file T s3_path c st = (st, Except.ok 0)) ∧
    (lastExt s3_path = "gz" → ¬ lowerStr s3_path = "gz" →
      ¬ strEndsWith s3_path ".tar.gz" = true → c.gz = GzParse.attrError →
      sync_table_file T s3_path c st = (addSkip st, Except.ok 0)) ∧
    ((lastExt s3_path = "csv" ∨ lastExt s3_path = "txt") →
      ¬ lowerStr s3_path = lastExt s3_path →
      c.csv = CsvIter.noIterator →
      sync_table_file T s3_path c st = (addSkip st, Except.ok 0)) ∧
    (lastExt s3_path = "jsonl" → ¬ lowerStr s3_path = "jsonl" →
      (∀ l ∈ c.jsonl, l = JLine.blank ∨ l = JLine.obj []) →
      sync_table_file T s3_path c st = (addSkip st, Except.ok 0)) ∧
    (∀ rows : List Row,
      (lastExt s3_path = "csv" ∨ lastExt s3_path = "txt") →
      ¬ lowerStr s3_path = lastExt s3_path →
      c.csv = CsvIter.iter rows true →
      ((sync_table_file T s3_path c st).1).skipped = st.skipped + 1 ∧
      (sync_table_file T s3_path c st).2 = Except.ok 0 ∧
      ((sync_table_file T s3_path c st).1).batches
        = ((csvLoop T rows [] 0 st).2.2).batches) := by
  refine ⟨?_, ?_, ?_, ?_, ?_, ?_⟩
  · intro h
    exact sync_table_file_no_ext T s3_path c st h
  · intro h1 h2 h3 h4 h5 h6 h7
    exact sync_table_file_unknown_ext T s3_path c st h1 h2 h3 h4 h5 h6 h7
  · intro hext hlow htar hgz
    have hlow2 : ¬ lowerStr s3_path = lastExt s3_path := by rw [hext]; exact hlow
    rw [sync_table_file_eq_handle T s3_path c st (Or.inr (Or.inl hext)) hlow2,
      hext, handle_file_gz_eq T s3_path c st hlow, sync_gz_file]
    simp [htar, hgz]
  · intro hext hlow hcsv
    rw [sync_table_file_eq_handle T s3_path c st
        (by rcases hext with h | h; exacts [Or.inl h, Or.inr (Or.inr (Or.inr h))]) hlow,
      handle_file_csv_eq T s3_path (lastExt s3_path) c st
        (by rcases hext with h | h; exacts [Or.inl h, Or.inr h]) hlow,
      hcsv]
    rfl
  · intro hext hlow hempty
    have hlow2 : ¬ lowerStr s3_path = lastExt s3_path := by rw [hext]; exact hlow
    rw [sync_table_file_eq_handle T s3_path c st (Or.inr (Or.inr (Or.inl hext))) hlow2,
      hext, handle_file_jsonl_eq T s3_path c st hlow,
      sync_jsonl_file_all_empty T c.jsonl hempty st]
  · intro rows hext hlow hcsv
    rw [sync_table_file_eq_handle T s3_path c st
        (by rcases hext with h | h; exacts [Or.inl h, Or.inr (Or.inr (Or.inr h))]) hlow,
      handle_file_csv_eq T s3_path (lastExt s3_path) c st
        (by rcases hext with h | h; exacts [Or.inl h, Or.inr h]) hlow,
      hcsv]
    rcases hloop : csvLoop T rows [] 0 st with ⟨buf, synced, st2⟩
    have hskip := csvLoop_skipped T rows [] 0 st
    rw [hloop] at hskip
    dsimp only at hskip
    simp only [sync_csv_file, hloop, if_pos rfl]
    exact ⟨by simp [addSkip, hskip], rfl, rfl⟩

def c100 : Content := .mk (.iter (List.replicate 100 ["x"]) true) [] .attrError []

/-- C3 counterexample, two parts. A top-level "a.pdf" object is skipped for
its unsupported extension with zero records, yet the skip counter stays 0
(the claim demands exactly one increment). A "d.csv" object whose iterator
yields 100 rows and then raises is counted as skipped, yet one full batch
of 100 records was already handed downstream (the claim demands zero
records emitted). -/
theorem claim_C3_counterexample :
    ((sync_table_file T0 "a.pdf" c0 ⟨0, []⟩).2 = Except.ok 0 ∧
     ((sync_table_file T0 "a.pdf" c0 ⟨0, []⟩).1).skipped = 0) ∧
    (((sync_table_file T0 "d.csv" c100 ⟨0, []⟩).1).skipped = 1 ∧
     ((sync_table_file T0 "d.csv" c100 ⟨0, []⟩).1).batches
        = [List.replicate 100 (0 : Nat)]) := by
  have hc : sync_csv_file T0 c100.csv ⟨0, []⟩
      = (⟨0, [List.replicate 100 (0 : Nat)]⟩, Except.error Exc.decodeError) := by
    rfl
  have hfull : sync_table_file T0 "d.csv" c100 ⟨0, []⟩
      = (⟨1, [List.replicate 100 (0 : Nat)]⟩, Except.ok 0) := by
    rw [sync_table_file_eq_handle T0 _ _ _ (Or.inl (by decide)) (by decide),
      handle_file_csv_eq T0 _ _ _ _ (Or.inl (by decide)) (by decide), hc]
    rfl
  exact ⟨⟨rfl, rfl⟩, by rw [hfull]; exact ⟨rfl, rfl⟩⟩

theorem claim_C3_amended_witness :
    sync_table_file T0 "noext" c0 ⟨0, []⟩ = (addSkip ⟨0, []⟩, Except.ok 0) ∧
    sync_table_file T0 "a.pdf" c0 ⟨0, []⟩ = (⟨0, []⟩, Except.ok 0) ∧
    sync_table_file T0 "data.gz" c0 ⟨0, []⟩ = (addSkip ⟨0, []⟩, Except.ok 0) ∧
    sync_table_file T0 "d.csv" c0 ⟨0, []⟩ = (addSkip ⟨0, []⟩, Except.ok 0) ∧
    sync_table_file T0 "d.jsonl" cJempty ⟨0, []⟩ = (addSkip ⟨0, []⟩, Except.ok 0) ∧
    (((sync_table_file T0 "d.csv" cCsvFail ⟨0, []⟩).1).skipped = 0 + 1 ∧
     (sync_table_file T0 "d.csv" cCsvFail ⟨0, []⟩).2 = Except.ok 0 ∧
     ((sync_table_file T0 "d.csv" cCsvFail ⟨0, []⟩).1).batches
        = ((csvLoop T0 [["a"]] [] 0 ⟨0, []⟩).2.2).batches) :=
  ⟨(claim_C3_amended_skip_accounting T0 "noext" c0 ⟨0, []⟩).1 (Or.inr (by decide)),
   (claim_C3_amended_skip_accounting T0 "a.pdf" c0 ⟨0, []⟩).2.1
      (by decide) (by decide) (by decide) (by decide) (by decide) (by decide) (by decide),
   (claim_C3_amended_skip_accounting T0 "data.gz" c0 ⟨0, []⟩).2.2.1
      (by decide) (by decide) (by decide) rfl,
   (claim_C3_amended_skip_accounting T0 "d.csv" c0 ⟨0, []⟩).2.2.2.1
      (Or.inl (by decide)) (by decide) rfl,
   (claim_C3_amended_skip_accounting T0 "d.jsonl" cJempty ⟨0, []⟩).2.2.2.2.1
      (by decide) (by decide) (by decide),
   (claim_C3_amended_skip_accounting T0 "d.csv" cCsvFail ⟨0, []⟩).2.2.2.2.2
      [["a"]] (Or.inl (by decide)) (by decide) rfl⟩

/-! Association-list dictionary lemmas for get_source_type_for_updatecol_map. -/

theorem lookupStr_cons (p : String × String) (m : List (String × String))
    (k : String) :
    lookupStr (p :: m) k = if p.1 = k then some p.2 else lookupStr m k := by
  unfold lookupStr
  by_cases h : p.1 = k
  · rw [List.find?_cons_of_pos _ (by simpa using h), if_pos h]
    rfl
  · rw [List.find?_cons_of_neg _ (by simpa using h), if_neg h]

theorem lookupStr_none_iff (m : List (String × String)) (k : String) :
    lookupStr m k = none ↔ m.any (fun q => q.1 = k) = false := by
  induction m with
  | nil => simp [lookupStr]
  | cons p rest ih =>
    rw [lookupStr_cons, List.any_cons]
    by_cases h : p.1 = k
    · simp [h]
    · simp [h, ih]

theorem lookupStr_some_any (m : List (String × String)) (k t : String)
    (h : lookupStr m k = some t) : m.any (fun q => q.1 = k) = true := by
  rcases hany : m.any (fun q => q.1 = k) with _ | _
  · rw [(lookupStr_none_iff m k).mpr hany] at h
    cases h
  · rfl

theorem lookupStr_map_ne (m : List (String × String)) (k v k2 : String)
    (hne : ¬ k2 = k) :
    lookupStr (m.map (fun q => if q.1 = k then (k, v) else q)) k2
      = lookupStr m k2 := by
  induction m with
  | nil => rfl
  | cons p rest ih =>
    simp only [List.map_cons]
    by_cases hp : p.1 = k
    · rw [if_pos hp, lookupStr_cons, lookupStr_cons,
        if_neg (fun hh => hne hh.symm), if_neg (fun hh => hne (hh.symm.trans hp))]
      exact ih
    · rw [if_neg hp, lookupStr_cons, lookupStr_cons]
      by_cases hk2 : p.1 = k2
      · rw [if_pos hk2, if_pos hk2]
      · rw [if_neg hk2, if_neg hk2]
        exact ih

theorem lookupStr_map_hit (m : List (String × String)) (k v : String)
    (hany : m.any (fun q => q.1 = k) = true) :
    lookupStr (m.map (fun q => if q.1 = k then (k, v) else q)) k = some v := by
  induction m with
  | nil => cases hany
  | cons p rest ih =>
    simp only [List.map_cons]
    by_cases hp : p.1 = k
    · rw [if_pos hp, lookupStr_cons, if_pos rfl]
    · rw [if_neg hp, lookupStr_cons, if_neg hp]
      rw [List.any_cons] at hany
      have : rest.any (fun q => q.1 = k) = true := by
        rcases Bool.or_eq_true_iff.mp hany with h | h
        · exact absurd (by simpa using h) hp
        · exact h
      exact ih this

theorem lookupStr_append_single (m : List (String × String)) (k v k2 : String)
    (hnone : m.any (fun q => q.1 = k) = false) :
    lookupStr (m ++ [(k, v)]) k2 = if k2 = k then some v else lookupStr m k2 := by
  induction m with
  | nil =>
    rw [List.nil_append, lookupStr_cons]
    by_cases h : k2 = k
    · rw [if_pos (h.symm), if_pos h]
    · rw [if_neg (fun hh => h hh.symm), if_neg h]
  | cons p rest ih =>
    rw [List.any_cons] at hnone
    have hp : ¬ p.1 = k := by
      intro hh
      simp [hh] at hnone
    have hrest : rest.any (fun q => q.1 = k) = false :=
      (Bool.or_eq_false_iff.mp hnone).2
    rw [List.cons_append, lookupStr_cons, lookupStr_cons]
    by_cases hk2 : p.1 = k2
    · rw [if_pos hk2, if_pos hk2, if_neg (fun hh => hp (hk2.trans hh))]
    · rw [if_neg hk2, if_neg hk2]
      exact ih hrest

theorem lookupStr_insertStr (m : List (String × String)) (k v k2 : String) :
    lookupStr (insertStr m k v) k2 = if k2 = k then some v else lookupStr m k2 := by
  unfold insertStr
  rcases hany : m.any (fun q => q.1 = k) with _ | _
  · simp only [Bool.false_eq_true, if_false]
    exact lookupStr_append_single m k v k2 hany
  · simp only [if_pos rfl]
    by_cases h : k2 = k
    · rw [if_pos h, h]
      exact lookupStr_map_hit m k v hany
    · rw [if_neg h]
      exact lookupStr_map_ne m k v k2 h

theorem any_and_const {α : Type} (l : List α) (p : α → Bool) (c : Bool) :
    (l.any fun a => p a && c) = (l.any p && c) := by
  cases c with
  | false => simp
  | true => simp

/-- Invariant of the rule fold in get_source_type_for_updatecol_map. -/
theorem updatecol_fold_lookup (stm : List (String × String))
    (us : List ColumnUpdate) :
    ∀ (acc : List (String × String)) (k : String),
    lookupStr (us.foldl (fun acc u =>
        if u.columnUpdateType ≠ "modify" then acc
        else match lookupStr stm u.column with
          | some t => insertStr acc u.column t
          | none => acc) acc) k
      = if (us.any fun u => decide (u.columnUpdateType = "modify")
              && decide (u.column = k)
              && stm.any (fun q => q.1 = k)) = true
        then lookupStr stm k
        else lookupStr acc k := by
  induction us with
  | nil => intro acc k; simp
  | cons u rest ih =>
    intro acc k
    simp only [List.foldl_cons, List.any_cons]
    by_cases hm : u.columnUpdateType = "modify"
    · rw [if_neg (by simpa using hm)]
      rcases hl : lookupStr stm u.column with _ | t
      · rw [ih acc k]
        by_cases hk : u.column = k
        · have hz : stm.any (fun q => q.1 = k) = false :=
            (lookupStr_none_iff stm k).mp (hk ▸ hl)
          have hu : (decide (u.columnUpdateType = "modify") && decide (u.column = k)
              && stm.any (fun q => q.1 = k)) = false := by
            simp [hz]
          simp only [hu, Bool.false_or]
        · have hu : (decide (u.columnUpdateType = "modify") && decide (u.column = k)
              && stm.any (fun q => q.1 = k)) = false := by
            simp [hk]
          simp only [hu, Bool.false_or]
      · rw [ih (insertStr acc u.column t) k, lookupStr_insertStr]
        by_cases hk : u.column = k
        · have hany : stm.any (fun q => q.1 = k) = true :=
            lookupStr_some_any stm k t (hk ▸ hl)
          have ht : lookupStr stm k = some t := hk ▸ hl
          have hu : (decide (u.columnUpdateType = "modify") && decide (u.column = k)
              && stm.any (fun q => q.1 = k)) = true := by
            simp [hm, hk, hany]
          simp only [hu, Bool.true_or, if_true]
          by_cases hrest : (rest.any fun u => decide (u.columnUpdateType = "modify")
              && decide (u.column = k) && stm.any (fun q => q.1 = k)) = true
          · rw [if_pos hrest]
          · rw [if_neg hrest, if_pos hk.symm]
            exact ht.symm
        · have hu : (decide (u.columnUpdateType = "modify") && decide (u.column = k)
              && stm.any (fun q => q.1 = k)) = false := by
            simp [hk]
          simp only [hu, Bool.false_or]
          by_cases hrest : (rest.any fun u => decide (u.columnUpdateType = "modify")
              && decide (u.column = k) && stm.any (fun q => q.1 = k)) = true
          · rw [if_pos hrest, if_pos hrest]
          · rw [if_neg hrest, if_neg hrest,
              if_neg (fun hh : k = u.column => hk hh.symm)]
    · rw [if_pos (by simpa using hm)]
      rw [ih acc k]
      have hu : (decide (u.columnUpdateType = "modify") && decide (u.column = k)
          && stm.any (fun q => q.1 = k)) = false := by
        simp [hm]
      simp only [hu, Bool.false_or]

/-- The rule list the code actually reads: list(column_updates.values())[0]
(sync.py line 211) — the first entry's rules only. -/
def firstUpdates
    (column_updates : Option (List (String × List ColumnUpdate))) :
    List ColumnUpdate :=
  match column_updates with
  | none => []
  | some [] => []
  | some ((_, us) :: _) => us

/-- C9 (amended): the per-field type-override map contains exactly the
columns having a modify rule in the FIRST entry of the configured
column-update mapping and a native source type in the schema map, each
bound to that native type; rules under any later entries are ignored. -/
theorem claim_C9_amended_override_map_first_entry
    (cu : Option (List (String × List ColumnUpdate)))
    (stm : List (String × String)) (k : String) :
    lookupStr (get_source_type_for_updatecol_map cu stm) k
      = if (((firstUpdates cu).any fun u =>
              decide (u.columnUpdateType = "modify") && decide (u.column = k))
            && stm.any (fun q => q.1 = k)) = true
        then lookupStr stm k
        else none := by
  match cu with
  | none => simp [get_source_type_for_updatecol_map, firstUpdates, lookupStr]
  | some [] => simp [get_source_type_for_updatecol_map, firstUpdates, lookupStr]
  | some ((name, us) :: rest) =>
    show lookupStr (us.foldl _ []) k = _
    rw [updatecol_fold_lookup stm us [] k]
    have hconv : (us.any fun u => decide (u.columnUpdateType = "modify")
          && decide (u.column = k) && stm.any (fun q => q.1 = k))
        = ((us.any fun u => decide (u.columnUpdateType = "modify")
            && decide (u.column = k)) && stm.any (fun q => q.1 = k)) := by
      exact any_and_const us _ _
    rw [hconv]
    simp [firstUpdates, lookupStr]

def cu2 : Option (List (String × List ColumnUpdate)) :=
  some [("a", [⟨"modify", "c1"⟩]), ("b", [⟨"modify", "c2"⟩])]

def stm2 : List (String × String) := [("c1", "int"), ("c2", "str")]

/-- C9 counterexample: with two entries in columns_to_update, the modify
rule for c2 sits under the second entry and is ignored by the code (it
reads only the first entry's rules): the built override map has no binding
for c2 although the configured rules contain a modify for c2 and the schema
exposes its native type ("str"); the claim demands some "str". The first
entry's rule for c1 is honoured. -/
theorem claim_C9_counterexample :
    lookupStr (get_source_type_for_updatecol_map cu2 stm2) "c2" = none ∧
    lookupStr stm2 "c2" = some "str" ∧
    lookupStr (get_source_type_for_updatecol_map cu2 stm2) "c1" = some "int" := by
  refine ⟨?_, ?_, ?_⟩ <;> decide

/-- C10: sync_stream never resets the module-global skip counter — after a
sync it is at least its starting value, so across tables synced in sequence
in one process it accumulates the total — and the end-of-sync warning of a
successful run reports that cumulative value, which can therefore include
skips incurred while syncing earlier tables. -/
theorem claim_C10_skip_counter_never_reset (T : Transform Rec)
    (files : List S3File) (st : SyncState Rec) (n : Nat)
    (hok : (sync_stream T files st).result = Except.ok n) :
    st.skipped ≤ ((sync_stream T files st).state).skipped ∧
    (sync_stream T files st).warned
      = if ((sync_stream T files st).state).skipped ≠ 0
        then some ((sync_stream T files st).state).skipped else none := by
  refine ⟨sync_stream_mono T files st, ?_⟩
  rcases hrun : syncFiles T (files.mergeSort (fun a b => a.key ≤ b.key)) 0 st []
    with ⟨st2, writes, res⟩
  simp only [sync_stream, hrun] at hok ⊢
  cases res with
  | ok m => rfl
  | error e => simp at hok

def filesSkip : List S3File := [⟨"noext", "2024-05-01T00:00:00", c0⟩]

theorem claim_C10_witness :
    (3 : Nat) ≤ ((sync_stream T0 filesSkip ⟨3, []⟩).state).skipped ∧
    (sync_stream T0 filesSkip ⟨3, []⟩).warned
      = if ((sync_stream T0 filesSkip ⟨3, []⟩).state).skipped ≠ 0
        then some ((sync_stream T0 filesSkip ⟨3, []⟩).state).skipped else none :=
  claim_C10_skip_counter_never_reset T0 filesSkip ⟨3, []⟩ 0
    (by
      have hms : filesSkip.mergeSort (fun a b => a.key ≤ b.key) = filesSkip := by
        simp [filesSkip, List.mergeSort]
      rw [sync_stream.eq_def, hms]
      rfl)

end TapS3Csv
